import Mathlib

/-!
Shallow embedding of `src/API_LATENCY_MONITOR.py` (an interactive API latency
checker) and verification of its specification.

Python floats are modelled as exact rationals (`ℚ`); `round(x, 2)` is modelled
as rounding to the nearest multiple of 1/100 (Mathlib's `round`, rounding to
the nearest integer).  Network effects are modelled by an explicit oracle: each
probe attempt either yields a response (status code, elapsed seconds, optional
body) or raises a transport exception carrying a message.  The thread pool and
`as_completed` are modelled by quantifying over the completion order, an
arbitrary permutation of the submitted probes.
-/

namespace ApiLatency

/-- Python `round(x, 2)`: round to two decimal places, modelled exactly on ℚ. -/
def round2 (x : ℚ) : ℚ := (round (100 * x) : ℤ) / 100

/-- Result of one probe attempt, the 4-tuple `(status, latency_ms, size, error)`
returned by `measure_once`.  `none` models Python `None`. -/
structure ProbeOutcome where
  status : Option ℤ
  latency_ms : Option ℚ
  size : Option ℕ
  error : Option String
deriving DecidableEq

/-- Network oracle for one probe: either a response was received (status code,
elapsed wall-clock seconds between the two `perf_counter` reads, and the body,
`none` modelling `r.content is None`), or the transport raised an exception
with the given message (`str(e)`). -/
inductive NetResult where
  | response (status : ℤ) (elapsedSeconds : ℚ) (content : Option (List ℕ))
  | transportError (message : String)
deriving DecidableEq

/-- Embedding of `measure_once` (lines 33-42): on a received response it
records the status code, the elapsed time converted to milliseconds and
rounded to 2 decimals, and the body length (`0` when the body is `None`),
with no error; the `except` clause turns any exception into the outcome
`(None, None, None, str(e))`. -/
def measure_once : NetResult → ProbeOutcome
  | .response s t content =>
      { status := some s
        latency_ms := some (round2 (t * 1000))
        size := some (match content with | some c => c.length | none => 0)
        error := none }
  | .transportError msg =>
      { status := none, latency_ms := none, size := none, error := some msg }

/-- Embedding of `measure_multiple` (lines 44-49): the futures resolve in some
completion order (an arbitrary permutation of the submitted probes, supplied
here as `completionOrder`), and `fut.result()` yields `measure_once`'s value
for each probe, so the batch is the image of the completion order under
`measure_once`. -/
def measure_multiple (completionOrder : List NetResult) : List ProbeOutcome :=
  completionOrder.map measure_once

/-- Latency values present in a batch: `[r[1] for r in results if r[1] is not None]`. -/
def latencies (results : List ProbeOutcome) : List ℚ :=
  results.filterMap (fun r => r.latency_ms)

/-- Status codes present in a batch: `[r[0] for r in results if r[0] is not None]`. -/
def statuses (results : List ProbeOutcome) : List ℤ :=
  results.filterMap (fun r => r.status)

/-- Error messages present in a batch: `[r[3] for r in results if r[3] is not None]`. -/
def errors (results : List ProbeOutcome) : List String :=
  results.filterMap (fun r => r.error)

/-- Python `str(s).isdigit()` for an int `s`: true exactly when the decimal
rendering has no sign, i.e. when `s` is nonnegative. -/
def strIsDigit (s : ℤ) : Bool := decide (0 ≤ s)

/-- The success filter of line 57: `str(s).isdigit() and 200 <= int(s) < 400`. -/
def isSuccessStatus (s : ℤ) : Bool :=
  strIsDigit s && decide (200 ≤ s) && decide (s < 400)

/-- Python `min` over a list (`None` on the empty list, which the code guards). -/
def pyMin : List ℚ → Option ℚ
  | [] => none
  | x :: xs => some (xs.foldl min x)

/-- Python `max` over a list (`None` on the empty list, which the code guards). -/
def pyMax : List ℚ → Option ℚ
  | [] => none
  | x :: xs => some (xs.foldl max x)

/-- Python `statistics.mean`: the exact arithmetic mean. -/
def pyMean (l : List ℚ) : ℚ := l.sum / l.length

/-- The square of `statistics.stdev`: the sample variance, the sum of squared
deviations from the mean divided by `n - 1`. -/
def sampleVariance (l : List ℚ) : ℚ :=
  (l.map (fun x => (x - pyMean l) ^ 2)).sum / ((l.length : ℚ) - 1)

/-- Floor of the real square root of a nonnegative rational, computed with
natural-number square roots. -/
def ratFloorSqrt (w : ℚ) : ℕ := Nat.sqrt ⌊w⌋.toNat

/-- Nearest integer to the real square root of a nonnegative rational. -/
def ratRoundSqrt (u : ℚ) : ℕ := (ratFloorSqrt (4 * u) + 1) / 2

/-- Python `round(sqrt(v), 2)` computed exactly: the real square root of `v`
rounded to two decimal places (a rational number). -/
def round2Sqrt (v : ℚ) : ℚ := (ratRoundSqrt (10000 * v) : ℚ) / 100

/-- The summary dictionary built by `aggregate_results` (lines 55-63). -/
structure TargetSummary where
  count : ℕ
  success_count : ℕ
  failure_count : ℕ
  min_ms : Option ℚ
  avg_ms : Option ℚ
  max_ms : Option ℚ
  stdev_ms : ℚ
deriving DecidableEq

/-- Embedding of `aggregate_results` (lines 51-63).  `min_ms`, `avg_ms`,
`max_ms` are `None` exactly when `latencies` is empty (the `if latencies`
guards); `stdev_ms` is `round(stdev(latencies), 2)` when more than one latency
is present and `0.0` otherwise. -/
def aggregate_results (results : List ProbeOutcome) : TargetSummary :=
  { count := results.length
    success_count := (statuses results).countP isSuccessStatus
    failure_count := (errors results).length
    min_ms := (pyMin (latencies results)).map round2
    avg_ms :=
      if latencies results = [] then none
      else some (round2 (pyMean (latencies results)))
    max_ms := (pyMax (latencies results)).map round2
    stdev_ms :=
      if 1 < (latencies results).length then round2Sqrt (sampleVariance (latencies results))
      else 0 }

/-- Characters of the literal `"http://"`. -/
def httpChars : List Char := ['h', 't', 't', 'p', ':', '/', '/']

/-- Characters of the literal `"https://"`. -/
def httpsChars : List Char := ['h', 't', 't', 'p', 's', ':', '/', '/']

/-- The scheme test of line 107: `url.startswith("http://") or
url.startswith("https://")` (the code negates the conjunction of the two
negated tests). -/
def hasScheme (url : List Char) : Bool :=
  httpChars.isPrefixOf url || httpsChars.isPrefixOf url

/-- The normalization step of lines 107-108: prepend `"https://"` when neither
scheme string is already a leading substring. -/
def normalizeUrl (url : List Char) : List Char :=
  if hasScheme url then url else httpsChars ++ url

/-- Python `str.strip`: drop whitespace from both ends. -/
def pyStrip (l : List Char) : List Char :=
  ((l.dropWhile Char.isWhitespace).reverse.dropWhile Char.isWhitespace).reverse

/-- Python `x or ""` for an optional int cell: `None` and the falsy value `0`
both render as the blank cell (modelled as `none`). -/
def truthyInt : Option ℤ → Option ℤ
  | some s => if s = 0 then none else some s
  | none => none

/-- Python `x or ""` for an optional float cell: `None` and `0.0` render blank. -/
def truthyRat : Option ℚ → Option ℚ
  | some x => if x = 0 then none else some x
  | none => none

/-- Python `x or ""` for an optional nonnegative int cell: `None` and `0` render blank. -/
def truthyNat : Option ℕ → Option ℕ
  | some n => if n = 0 then none else some n
  | none => none

/-- Python `x or ""` for an optional string cell: `None` and `""` render blank. -/
def truthyStr : Option String → Option String
  | some s => if s = "" then none else some s
  | none => none

/-- One row of `api_latency_detailed.csv` as appended in lines 112-120;
`none` in a cell stands for the blank produced by `value or ""`. -/
structure DetailRow where
  url : List Char
  sample_index : ℕ
  status : Option ℤ
  latency_ms : Option ℚ
  response_bytes : Option ℕ
  error : Option String
deriving DecidableEq

/-- Builds the detailed row for one probe outcome (lines 111-120): every data
cell goes through Python's `value or ""`. -/
def detailRow (url : List Char) (idx : ℕ) (o : ProbeOutcome) : DetailRow :=
  { url := url
    sample_index := idx
    status := truthyInt o.status
    latency_ms := truthyRat o.latency_ms
    response_bytes := truthyNat o.size
    error := truthyStr o.error }

/-- Terminal state of `main`: either the empty-input early return of lines
75-77 (before any session, pool or probe exists), or a completed run with its
accumulated detailed rows and per-target summaries. -/
inductive RunResult where
  | noUrls
  | finished (detailed : List DetailRow) (summary : List (List Char × TargetSummary))
deriving DecidableEq

/-- Rows and summary for a single target inside the main loop (lines 106-132):
normalize the url, collect the batch, build one detailed row per outcome
(1-based enumeration) and one aggregate summary. -/
def processUrl (net : List Char → List NetResult) (url : List Char) :
    List DetailRow × (List Char × TargetSummary) :=
  let nurl := normalizeUrl url
  let results := measure_multiple (net nurl)
  ((results.enumFrom 1).map (fun p => detailRow nurl p.1 p.2),
   (nurl, aggregate_results results))

/-- Embedding of `main` (lines 72-140) at the level of detail the claims need:
the raw prompt answer is stripped; if it is empty the run stops at once
(lines 75-77), otherwise the input is split on commas, each piece stripped and
empty pieces dropped (line 78), and every surviving url is processed in order.
The network oracle `net` gives each normalized url its probes' fates in
completion order. -/
def mainRun (rawInput : List Char) (net : List Char → List NetResult) : RunResult :=
  let urls_input := pyStrip rawInput
  if urls_input = [] then .noUrls
  else
    let urls := ((urls_input.splitOn ',').map pyStrip).filter (fun u => u ≠ [])
    .finished ((urls.map (fun u => (processUrl net u).1)).flatten)
      (urls.map (fun u => (processUrl net u).2))

/-- A completed attempt: a response was received, so status, latency and size
are all present and the error field is absent. -/
def Completed (o : ProbeOutcome) : Prop :=
  o.status.isSome = true ∧ o.latency_ms.isSome = true ∧ o.size.isSome = true ∧ o.error = none

/-- A transport failure: no response was received, so status, latency and size
are all absent and an error description is present. -/
def TransportFailure (o : ProbeOutcome) : Prop :=
  o.status = none ∧ o.latency_ms = none ∧ o.size = none ∧ o.error.isSome = true

instance (o : ProbeOutcome) : Decidable (Completed o) := by
  unfold Completed; infer_instance

instance (o : ProbeOutcome) : Decidable (TransportFailure o) := by
  unfold TransportFailure; infer_instance

/-! ### Helper lemmas -/

theorem isPrefixOf_append (l u : List Char) : l.isPrefixOf (l ++ u) = true := by
  induction l with
  | nil => simp [List.isPrefixOf]
  | cons a as ih => simp [List.isPrefixOf, ih]

theorem foldl_min_le_self (xs : List ℚ) (x : ℚ) : xs.foldl min x ≤ x := by
  induction xs generalizing x with
  | nil => simp
  | cons a as ih =>
    simpa using le_trans (ih (min x a)) (min_le_left x a)

theorem foldl_min_le_mem (xs : List ℚ) (x y : ℚ) (hy : y ∈ xs) : xs.foldl min x ≤ y := by
  induction xs generalizing x with
  | nil => cases hy
  | cons a as ih =>
    simp only [List.foldl_cons]
    rcases List.mem_cons.mp hy with h | h
    · subst h
      exact le_trans (foldl_min_le_self as (min x y)) (min_le_right x y)
    · exact ih (min x a) h

theorem foldl_min_mem (xs : List ℚ) (x : ℚ) : xs.foldl min x = x ∨ xs.foldl min x ∈ xs := by
  induction xs generalizing x with
  | nil => left; rfl
  | cons a as ih =>
    simp only [List.foldl_cons]
    rcases ih (min x a) with h | h
    · rcases min_choice x a with hc | hc
      · left; rw [h, hc]
      · right; rw [h, hc]; exact List.mem_cons_self a as
    · right; exact List.mem_cons_of_mem a h

theorem foldl_max_self_le (xs : List ℚ) (x : ℚ) : x ≤ xs.foldl max x := by
  induction xs generalizing x with
  | nil => simp
  | cons a as ih =>
    simpa using le_trans (le_max_left x a) (ih (max x a))

theorem foldl_max_mem_le (xs : List ℚ) (x y : ℚ) (hy : y ∈ xs) : y ≤ xs.foldl max x := by
  induction xs generalizing x with
  | nil => cases hy
  | cons a as ih =>
    simp only [List.foldl_cons]
    rcases List.mem_cons.mp hy with h | h
    · subst h
      exact le_trans (le_max_right x y) (foldl_max_self_le as (max x y))
    · exact ih (max x a) h

theorem foldl_max_mem (xs : List ℚ) (x : ℚ) : xs.foldl max x = x ∨ xs.foldl max x ∈ xs := by
  induction xs generalizing x with
  | nil => left; rfl
  | cons a as ih =>
    simp only [List.foldl_cons]
    rcases ih (max x a) with h | h
    · rcases max_choice x a with hc | hc
      · left; rw [h, hc]
      · right; rw [h, hc]; exact List.mem_cons_self a as
    · right; exact List.mem_cons_of_mem a h

theorem pyMin_eq_none_iff (l : List ℚ) : pyMin l = none ↔ l = [] := by
  cases l <;> simp [pyMin]

theorem pyMax_eq_none_iff (l : List ℚ) : pyMax l = none ↔ l = [] := by
  cases l <;> simp [pyMax]

theorem pyMin_spec (l : List ℚ) (m : ℚ) (h : pyMin l = some m) :
    m ∈ l ∧ ∀ y ∈ l, m ≤ y := by
  cases l with
  | nil => simp [pyMin] at h
  | cons x xs =>
    have hm : xs.foldl min x = m := by simpa [pyMin] using h
    subst hm
    constructor
    · rcases foldl_min_mem xs x with h1 | h1
      · rw [h1]; exact List.mem_cons_self x xs
      · exact List.mem_cons_of_mem x h1
    · intro y hy
      rcases List.mem_cons.mp hy with h1 | h1
      · rw [h1]; exact foldl_min_le_self xs x
      · exact foldl_min_le_mem xs x y h1

theorem pyMax_spec (l : List ℚ) (M : ℚ) (h : pyMax l = some M) :
    M ∈ l ∧ ∀ y ∈ l, y ≤ M := by
  cases l with
  | nil => simp [pyMax] at h
  | cons x xs =>
    have hm : xs.foldl max x = M := by simpa [pyMax] using h
    subst hm
    constructor
    · rcases foldl_max_mem xs x with h1 | h1
      · rw [h1]; exact List.mem_cons_self x xs
      · exact List.mem_cons_of_mem x h1
    · intro y hy
      rcases List.mem_cons.mp hy with h1 | h1
      · rw [h1]; exact foldl_max_self_le xs x
      · exact foldl_max_mem_le xs x y h1

theorem pyMin_isSome (l : List ℚ) (h : l ≠ []) : ∃ m, pyMin l = some m := by
  cases l with
  | nil => exact absurd rfl h
  | cons x xs => exact ⟨xs.foldl min x, rfl⟩

theorem pyMax_isSome (l : List ℚ) (h : l ≠ []) : ∃ M, pyMax l = some M := by
  cases l with
  | nil => exact absurd rfl h
  | cons x xs => exact ⟨xs.foldl max x, rfl⟩

theorem pyMin_perm {l₁ l₂ : List ℚ} (h : l₁.Perm l₂) : pyMin l₁ = pyMin l₂ := by
  cases l₁ with
  | nil =>
    have h2 : l₂ = [] := h.nil_eq.symm
    rw [h2]
  | cons x xs =>
    have h₂ : l₂ ≠ [] := by
      intro he
      exact List.cons_ne_nil x xs ((he ▸ h).eq_nil)
    obtain ⟨m₂, hm₂⟩ := pyMin_isSome l₂ h₂
    obtain ⟨m₁, hm₁⟩ := pyMin_isSome (x :: xs) (List.cons_ne_nil x xs)
    obtain ⟨hmem₁, hle₁⟩ := pyMin_spec _ _ hm₁
    obtain ⟨hmem₂, hle₂⟩ := pyMin_spec _ _ hm₂
    have he : m₁ = m₂ :=
      le_antisymm (hle₁ m₂ (h.mem_iff.mpr hmem₂)) (hle₂ m₁ (h.mem_iff.mp hmem₁))
    rw [hm₁, hm₂, he]

theorem pyMax_perm {l₁ l₂ : List ℚ} (h : l₁.Perm l₂) : pyMax l₁ = pyMax l₂ := by
  cases l₁ with
  | nil =>
    have h2 : l₂ = [] := h.nil_eq.symm
    rw [h2]
  | cons x xs =>
    have h₂ : l₂ ≠ [] := by
      intro he
      exact List.cons_ne_nil x xs ((he ▸ h).eq_nil)
    obtain ⟨m₂, hm₂⟩ := pyMax_isSome l₂ h₂
    obtain ⟨m₁, hm₁⟩ := pyMax_isSome (x :: xs) (List.cons_ne_nil x xs)
    obtain ⟨hmem₁, hle₁⟩ := pyMax_spec _ _ hm₁
    obtain ⟨hmem₂, hle₂⟩ := pyMax_spec _ _ hm₂
    have he : m₁ = m₂ :=
      le_antisymm (hle₂ m₁ (h.mem_iff.mp hmem₁)) (hle₁ m₂ (h.mem_iff.mpr hmem₂))
    rw [hm₁, hm₂, he]

theorem length_mul_le_sum (l : List ℚ) (m : ℚ) (h : ∀ y ∈ l, m ≤ y) :
    (l.length : ℚ) * m ≤ l.sum := by
  induction l with
  | nil => simp
  | cons a as ih =>
    have h1 : m ≤ a := h a (List.mem_cons_self a as)
    have h2 := ih (fun y hy => h y (List.mem_cons_of_mem a hy))
    simp only [List.length_cons, List.sum_cons]
    have h3 : ((as.length + 1 : ℕ) : ℚ) * m = (as.length : ℚ) * m + m := by
      push_cast; ring
    rw [h3]
    linarith

theorem sum_le_length_mul (l : List ℚ) (M : ℚ) (h : ∀ y ∈ l, y ≤ M) :
    l.sum ≤ (l.length : ℚ) * M := by
  induction l with
  | nil => simp
  | cons a as ih =>
    have h1 : a ≤ M := h a (List.mem_cons_self a as)
    have h2 := ih (fun y hy => h y (List.mem_cons_of_mem a hy))
    simp only [List.length_cons, List.sum_cons]
    have h3 : ((as.length + 1 : ℕ) : ℚ) * M = (as.length : ℚ) * M + M := by
      push_cast; ring
    rw [h3]
    linarith

theorem pyMin_le_pyMean (l : List ℚ) (m : ℚ) (h : pyMin l = some m) : m ≤ pyMean l := by
  have hne : l ≠ [] := by
    intro he
    rw [he] at h
    simp [pyMin] at h
  have hpos : (0 : ℚ) < l.length := by
    have := List.length_pos.mpr hne
    exact_mod_cast this
  obtain ⟨_, hle⟩ := pyMin_spec l m h
  rw [pyMean, le_div_iff₀ hpos]
  calc m * l.length = (l.length : ℚ) * m := by ring
  _ ≤ l.sum := length_mul_le_sum l m hle

theorem pyMean_le_pyMax (l : List ℚ) (M : ℚ) (h : pyMax l = some M) : pyMean l ≤ M := by
  have hne : l ≠ [] := by
    intro he
    rw [he] at h
    simp [pyMax] at h
  have hpos : (0 : ℚ) < l.length := by
    have := List.length_pos.mpr hne
    exact_mod_cast this
  obtain ⟨_, hle⟩ := pyMax_spec l M h
  rw [pyMean, div_le_iff₀ hpos]
  calc l.sum ≤ (l.length : ℚ) * M := sum_le_length_mul l M hle
  _ = M * l.length := by ring

theorem round2_mono {x y : ℚ} (h : x ≤ y) : round2 x ≤ round2 y := by
  unfold round2
  have h1 : round (100 * x) ≤ round (100 * y) := by
    rw [round_eq, round_eq]
    exact Int.floor_mono (by linarith)
  have h2 : ((round (100 * x) : ℤ) : ℚ) ≤ ((round (100 * y) : ℤ) : ℚ) := Int.cast_le.mpr h1
  linarith

/-! ### Claims -/

/-- C6: every outcome of `measure_once` satisfies the exactly-one-of
invariant: either the attempt completed (status, latency and size present,
error absent) or it failed at transport level (status, latency and size
absent, error present); latency and error are never both present nor both
absent. -/
theorem measure_once_exactly_one (net : NetResult) :
    (Completed (measure_once net) ∨ TransportFailure (measure_once net)) ∧
    ¬((measure_once net).latency_ms.isSome = true ∧ (measure_once net).error.isSome = true) ∧
    ¬((measure_once net).latency_ms = none ∧ (measure_once net).error = none) := by
  cases net <;> simp [measure_once, Completed, TransportFailure]

/-- C5: for every sample count `S`, if `S` probes are submitted then
`measure_multiple` returns exactly `S` outcomes, whatever the fates of the
individual probes (any mix of responses and transport failures, resolving in
any completion order). -/
theorem measure_multiple_length (S : ℕ) (fates completionOrder : List NetResult)
    (hfates : fates.length = S) (horder : completionOrder.Perm fates) :
    (measure_multiple completionOrder).length = S := by
  simp [measure_multiple, horder.length_eq, hfates]

theorem measure_multiple_length_witness :
    ([NetResult.transportError "timed out", NetResult.response 200 (1/100) none].length = 2 ∧
      ([NetResult.response 200 (1/100) none, NetResult.transportError "timed out"]).Perm
        [NetResult.transportError "timed out", NetResult.response 200 (1/100) none]) ∧
    (measure_multiple
      [NetResult.response 200 (1/100) none, NetResult.transportError "timed out"]).length = 2 :=
  ⟨⟨rfl, List.Perm.swap _ _ _⟩,
    measure_multiple_length 2
      [NetResult.transportError "timed out", NetResult.response 200 (1/100) none]
      [NetResult.response 200 (1/100) none, NetResult.transportError "timed out"]
      rfl (List.Perm.swap _ _ _)⟩

/-- C9: when the entered target list trims to the empty string, `main` reports
the condition and returns at once: the run ends in the `noUrls` state, which
carries no probe outcome, before any session, pool or probe exists. -/
theorem mainRun_empty_input (raw : List Char) (net : List Char → List NetResult)
    (h : pyStrip raw = []) : mainRun raw net = RunResult.noUrls := by
  simp [mainRun, h]

theorem mainRun_empty_input_witness :
    pyStrip [' ', ' '] = [] ∧ mainRun [' ', ' '] (fun _ => []) = RunResult.noUrls :=
  ⟨by decide, mainRun_empty_input [' ', ' '] (fun _ => []) (by decide)⟩

/-- C7: normalization returns any string that already starts with `http://` or
`https://` unchanged, prepends `https://` to any other string, and is
consequently idempotent on every input. -/
theorem normalizeUrl_spec (u : List Char) :
    (hasScheme u = true → normalizeUrl u = u) ∧
    (hasScheme u = false → normalizeUrl u = httpsChars ++ u) ∧
    normalizeUrl (normalizeUrl u) = normalizeUrl u := by
  have happ : hasScheme (httpsChars ++ u) = true := by
    simp [hasScheme, isPrefixOf_append]
  by_cases h : hasScheme u
  · exact ⟨fun _ => by simp [normalizeUrl, h], fun hc => by simp [h] at hc,
      by simp [normalizeUrl, h]⟩
  · refine ⟨fun hc => by simp [hc] at h, fun _ => by simp [normalizeUrl, h], ?_⟩
    have h1 : normalizeUrl u = httpsChars ++ u := by simp [normalizeUrl, h]
    rw [h1, normalizeUrl, happ, if_pos rfl]

theorem normalizeUrl_spec_witness :
    (hasScheme ['h', 't', 't', 'p', 's', ':', '/', '/', 'x'] = true ∧
      normalizeUrl ['h', 't', 't', 'p', 's', ':', '/', '/', 'x'] =
        ['h', 't', 't', 'p', 's', ':', '/', '/', 'x']) ∧
    (hasScheme ['x'] = false ∧ normalizeUrl ['x'] = httpsChars ++ ['x']) :=
  ⟨⟨by decide, (normalizeUrl_spec ['h', 't', 't', 'p', 's', ':', '/', '/', 'x']).1 (by decide)⟩,
   ⟨by decide, (normalizeUrl_spec ['x']).2.1 (by decide)⟩⟩

/-- C10: the scheme test is a case-sensitive character match, so an input
beginning with upper-case `HTTPS://` is treated as scheme-less and `https://`
is prepended, yielding a double-schemed target string. -/
theorem normalizeUrl_case_sensitive (rest : List Char) :
    normalizeUrl (['H', 'T', 'T', 'P', 'S', ':', '/', '/'] ++ rest) =
      httpsChars ++ (['H', 'T', 'T', 'P', 'S', ':', '/', '/'] ++ rest) := by
  have hb : (('h' : Char) == 'H') = false := by decide
  have h : hasScheme (['H', 'T', 'T', 'P', 'S', ':', '/', '/'] ++ rest) = false := by
    simp [hasScheme, httpChars, httpsChars, List.isPrefixOf, hb]
  unfold normalizeUrl
  rw [h]
  simp

/-- C8 exhibit: a completed response whose body is empty has a present size
field equal to 0, yet the detailed row renders the response-byte cell blank,
because line 118 uses the Python truthiness idiom `size or ""` and `0` is
falsy.  The blank-iff-absent description therefore fails on this probe. -/
theorem detailRow_blank_despite_present_size :
    Completed (measure_once (NetResult.response 200 (123/10000) (some []))) ∧
    (measure_once (NetResult.response 200 (123/10000) (some []))).size = some 0 ∧
    (detailRow httpsChars 1
        (measure_once (NetResult.response 200 (123/10000) (some [])))).response_bytes = none := by
  refine ⟨?_, rfl, rfl⟩
  simp [measure_once, Completed]

/-- C2: `min_ms`, `avg_ms`, `max_ms` are all absent exactly when the latency
set is empty; when it is nonempty they are the minimum, the mean and the
maximum of the latency set, each rounded to 2 decimal places, and they satisfy
`min_ms ≤ avg_ms ≤ max_ms`. -/
theorem aggregate_min_avg_max (results : List ProbeOutcome) :
    (((aggregate_results results).min_ms = none ∧ (aggregate_results results).avg_ms = none ∧
        (aggregate_results results).max_ms = none) ↔ latencies results = []) ∧
    (latencies results ≠ [] →
      ∃ m M, m ∈ latencies results ∧ (∀ y ∈ latencies results, m ≤ y) ∧
        M ∈ latencies results ∧ (∀ y ∈ latencies results, y ≤ M) ∧
        (aggregate_results results).min_ms = some (round2 m) ∧
        (aggregate_results results).avg_ms =
          some (round2 ((latencies results).sum / ((latencies results).length : ℚ))) ∧
        (aggregate_results results).max_ms = some (round2 M) ∧
        round2 m ≤ round2 ((latencies results).sum / ((latencies results).length : ℚ)) ∧
        round2 ((latencies results).sum / ((latencies results).length : ℚ)) ≤ round2 M) := by
  constructor
  · constructor
    · rintro ⟨h1, -, -⟩
      simp only [aggregate_results, Option.map_eq_none', pyMin_eq_none_iff] at h1
      exact h1
    · intro h
      simp [aggregate_results, h, pyMin, pyMax]
  · intro hne
    obtain ⟨m, hm⟩ := pyMin_isSome _ hne
    obtain ⟨M, hM⟩ := pyMax_isSome _ hne
    obtain ⟨hmm, hml⟩ := pyMin_spec _ _ hm
    obtain ⟨hMm, hMl⟩ := pyMax_spec _ _ hM
    refine ⟨m, M, hmm, hml, hMm, hMl, ?_, ?_, ?_, ?_, ?_⟩
    · simp [aggregate_results, hm]
    · simp [aggregate_results, hne, pyMean]
    · simp [aggregate_results, hM]
    · exact round2_mono (pyMin_le_pyMean _ _ hm)
    · exact round2_mono (pyMean_le_pyMax _ _ hM)

theorem aggregate_min_avg_max_witness :
    latencies [ProbeOutcome.mk (some 200) (some 10) (some 5) none,
        ProbeOutcome.mk (some 200) (some 20) (some 5) none] ≠ [] ∧
    ∃ m M,
      m ∈ latencies [ProbeOutcome.mk (some 200) (some 10) (some 5) none,
          ProbeOutcome.mk (some 200) (some 20) (some 5) none] ∧
      (∀ y ∈ latencies [ProbeOutcome.mk (some 200) (some 10) (some 5) none,
          ProbeOutcome.mk (some 200) (some 20) (some 5) none], m ≤ y) ∧
      M ∈ latencies [ProbeOutcome.mk (some 200) (some 10) (some 5) none,
          ProbeOutcome.mk (some 200) (some 20) (some 5) none] ∧
      (∀ y ∈ latencies [ProbeOutcome.mk (some 200) (some 10) (some 5) none,
          ProbeOutcome.mk (some 200) (some 20) (some 5) none], y ≤ M) ∧
      (aggregate_results [ProbeOutcome.mk (some 200) (some 10) (some 5) none,
          ProbeOutcome.mk (some 200) (some 20) (some 5) none]).min_ms = some (round2 m) ∧
      (aggregate_results [ProbeOutcome.mk (some 200) (some 10) (some 5) none,
          ProbeOutcome.mk (some 200) (some 20) (some 5) none]).avg_ms =
        some (round2 ((latencies [ProbeOutcome.mk (some 200) (some 10) (some 5) none,
          ProbeOutcome.mk (some 200) (some 20) (some 5) none]).sum /
            ((latencies [ProbeOutcome.mk (some 200) (some 10) (some 5) none,
              ProbeOutcome.mk (some 200) (some 20) (some 5) none]).length : ℚ))) ∧
      (aggregate_results [ProbeOutcome.mk (some 200) (some 10) (some 5) none,
          ProbeOutcome.mk (some 200) (some 20) (some 5) none]).max_ms = some (round2 M) ∧
      round2 m ≤ round2 ((latencies [ProbeOutcome.mk (some 200) (some 10) (some 5) none,
          ProbeOutcome.mk (some 200) (some 20) (some 5) none]).sum /
            ((latencies [ProbeOutcome.mk (some 200) (some 10) (some 5) none,
              ProbeOutcome.mk (some 200) (some 20) (some 5) none]).length : ℚ)) ∧
      round2 ((latencies [ProbeOutcome.mk (some 200) (some 10) (some 5) none,
          ProbeOutcome.mk (some 200) (some 20) (some 5) none]).sum /
            ((latencies [ProbeOutcome.mk (some 200) (some 10) (some 5) none,
              ProbeOutcome.mk (some 200) (some 20) (some 5) none]).length : ℚ)) ≤ round2 M :=
  ⟨by decide, (aggregate_min_avg_max _).2 (by decide)⟩

theorem not_success_decide (s : ℤ) :
    decide (s < 200 ∨ 400 ≤ s) = !isSuccessStatus s := by
  by_cases h : s < 200 ∨ 400 ≤ s
  · have h2 : isSuccessStatus s = false := by
      simp only [isSuccessStatus, strIsDigit]
      rcases h with h | h
      · have hd : decide (200 ≤ s) = false := by simp; omega
        simp [hd]
      · have hd : decide (s < 400) = false := by simp; omega
        simp [hd]
    simp [h, h2]
  · have h0 : (0 : ℤ) ≤ s := by omega
    have h1 : (200 : ℤ) ≤ s := by omega
    have h2 : s < (400 : ℤ) := by omega
    simp [isSuccessStatus, strIsDigit, h0, h1, h2, h]

theorem countP_not_add (l : List ℤ) :
    l.countP isSuccessStatus + l.countP (fun s => !isSuccessStatus s) = l.length := by
  induction l with
  | nil => rfl
  | cons a l ih =>
    simp only [List.countP_cons, List.length_cons]
    by_cases h : isSuccessStatus a <;> simp [h] <;> omega

theorem statuses_cons_some (o : ProbeOutcome) (rs : List ProbeOutcome) (s : ℤ)
    (h : o.status = some s) : statuses (o :: rs) = s :: statuses rs := by
  simp [statuses, List.filterMap_cons, h]

theorem statuses_cons_none (o : ProbeOutcome) (rs : List ProbeOutcome)
    (h : o.status = none) : statuses (o :: rs) = statuses rs := by
  simp [statuses, List.filterMap_cons, h]

theorem errors_cons_some (o : ProbeOutcome) (rs : List ProbeOutcome) (e : String)
    (h : o.error = some e) : errors (o :: rs) = e :: errors rs := by
  simp [errors, List.filterMap_cons, h]

theorem errors_cons_none (o : ProbeOutcome) (rs : List ProbeOutcome)
    (h : o.error = none) : errors (o :: rs) = errors rs := by
  simp [errors, List.filterMap_cons, h]

theorem statuses_errors_length (results : List ProbeOutcome)
    (h : ∀ o ∈ results, Completed o ∨ TransportFailure o) :
    (statuses results).length + (errors results).length = results.length := by
  induction results with
  | nil => rfl
  | cons o rs ih =>
    have ih2 := ih (fun x hx => h x (List.mem_cons_of_mem o hx))
    rcases h o (List.mem_cons_self o rs) with ⟨hs, -, -, herr⟩ | ⟨hs, -, -, herr⟩
    · obtain ⟨s, hs'⟩ := Option.isSome_iff_exists.mp hs
      rw [statuses_cons_some o rs s hs', errors_cons_none o rs herr]
      simp only [List.length_cons]
      omega
    · obtain ⟨e, herr'⟩ := Option.isSome_iff_exists.mp herr
      rw [statuses_cons_none o rs hs, errors_cons_some o rs e herr']
      simp only [List.length_cons]
      omega

/-- C3: on a batch in which every outcome is either completed or a transport
failure, the summary satisfies `success_count + (received statuses outside
the range 200 to 399) + failure_count = count`. -/
theorem aggregate_count_partition (results : List ProbeOutcome)
    (h : ∀ o ∈ results, Completed o ∨ TransportFailure o) :
    (aggregate_results results).success_count +
      (statuses results).countP (fun s => decide (s < 200 ∨ 400 ≤ s)) +
      (aggregate_results results).failure_count = (aggregate_results results).count := by
  have hc : (statuses results).countP (fun s => decide (s < 200 ∨ 400 ≤ s)) =
      (statuses results).countP (fun s => !isSuccessStatus s) :=
    List.countP_congr (fun x _ => by rw [not_success_decide])
  simp only [aggregate_results]
  rw [hc, countP_not_add]
  exact statuses_errors_length results h

theorem aggregate_count_partition_witness :
    (∀ o ∈ [ProbeOutcome.mk (some 200) (some 10) (some 5) none,
        ProbeOutcome.mk (some 500) (some 20) (some 5) none,
        ProbeOutcome.mk none none none (some "connection refused")],
      Completed o ∨ TransportFailure o) ∧
    (aggregate_results [ProbeOutcome.mk (some 200) (some 10) (some 5) none,
        ProbeOutcome.mk (some 500) (some 20) (some 5) none,
        ProbeOutcome.mk none none none (some "connection refused")]).success_count +
      (statuses [ProbeOutcome.mk (some 200) (some 10) (some 5) none,
        ProbeOutcome.mk (some 500) (some 20) (some 5) none,
        ProbeOutcome.mk none none none (some "connection refused")]).countP
          (fun s => decide (s < 200 ∨ 400 ≤ s)) +
      (aggregate_results [ProbeOutcome.mk (some 200) (some 10) (some 5) none,
        ProbeOutcome.mk (some 500) (some 20) (some 5) none,
        ProbeOutcome.mk none none none (some "connection refused")]).failure_count =
      (aggregate_results [ProbeOutcome.mk (some 200) (some 10) (some 5) none,
        ProbeOutcome.mk (some 500) (some 20) (some 5) none,
        ProbeOutcome.mk none none none (some "connection refused")]).count :=
  ⟨by decide, aggregate_count_partition _ (by decide)⟩

/-- C4: `aggregate_results` is a pure function of the multiset of outcomes:
permuting the result list leaves the entire summary (count, success and
failure counts, min, avg, max and stdev) unchanged. -/
theorem aggregate_results_perm (r₁ r₂ : List ProbeOutcome) (h : r₁.Perm r₂) :
    aggregate_results r₁ = aggregate_results r₂ := by
  have hl : (latencies r₁).Perm (latencies r₂) := h.filterMap _
  have hs : (statuses r₁).Perm (statuses r₂) := h.filterMap _
  have he : (errors r₁).Perm (errors r₂) := h.filterMap _
  have hmean : pyMean (latencies r₁) = pyMean (latencies r₂) := by
    unfold pyMean
    rw [hl.sum_eq, hl.length_eq]
  have hvar : sampleVariance (latencies r₁) = sampleVariance (latencies r₂) := by
    unfold sampleVariance
    rw [hmean, ((hl.map _).sum_eq : _), hl.length_eq]
  have hnil : (latencies r₁ = []) ↔ (latencies r₂ = []) := by
    constructor <;> intro hx
    · exact ((hx ▸ hl).nil_eq).symm
    · exact (hx ▸ hl).eq_nil
  simp only [aggregate_results]
  rw [h.length_eq, hs.countP_eq isSuccessStatus, he.length_eq, pyMin_perm hl, pyMax_perm hl,
    hvar, hl.length_eq]
  simp only [hnil, hmean]

theorem aggregate_results_perm_witness :
    ([ProbeOutcome.mk (some 200) (some 10) (some 5) none,
        ProbeOutcome.mk none none none (some "dns failure")] : List ProbeOutcome).Perm
      [ProbeOutcome.mk none none none (some "dns failure"),
        ProbeOutcome.mk (some 200) (some 10) (some 5) none] ∧
    aggregate_results [ProbeOutcome.mk (some 200) (some 10) (some 5) none,
        ProbeOutcome.mk none none none (some "dns failure")] =
      aggregate_results [ProbeOutcome.mk none none none (some "dns failure"),
        ProbeOutcome.mk (some 200) (some 10) (some 5) none] :=
  ⟨List.Perm.swap _ _ _, aggregate_results_perm _ _ (List.Perm.swap _ _ _)⟩

theorem ratCast_list_sum (l : List ℚ) :
    ((l.sum : ℚ) : ℝ) = (l.map (fun x : ℚ => (x : ℝ))).sum := by
  induction l with
  | nil => simp
  | cons a as ih => simp [ih]

theorem sampleVariance_cast (l : List ℚ) :
    ((sampleVariance l : ℚ) : ℝ) =
      (l.map (fun x : ℚ =>
        ((x : ℝ) - (l.map (fun y : ℚ => (y : ℝ))).sum / (l.length : ℝ)) ^ 2)).sum /
        ((l.length : ℝ) - 1) := by
  unfold sampleVariance
  rw [Rat.cast_div, ratCast_list_sum, List.map_map]
  have hfun : ((fun x : ℚ => (x : ℝ)) ∘ (fun x : ℚ => (x - pyMean l) ^ 2)) =
      (fun x : ℚ =>
        ((x : ℝ) - (l.map (fun y : ℚ => (y : ℝ))).sum / (l.length : ℝ)) ^ 2) := by
    funext x
    simp only [Function.comp_apply, pyMean]
    push_cast
    rfl
  rw [hfun]
  norm_cast

theorem sampleVariance_nonneg (l : List ℚ) (h : 2 ≤ l.length) : 0 ≤ sampleVariance l := by
  unfold sampleVariance
  apply div_nonneg
  · apply List.sum_nonneg
    intro x hx
    rcases List.mem_map.mp hx with ⟨y, -, rfl⟩
    positivity
  · have h2 : (2 : ℚ) ≤ (l.length : ℚ) := by exact_mod_cast h
    linarith

theorem ratFloorSqrt_spec (w : ℚ) (hw : 0 ≤ w) :
    (ratFloorSqrt w : ℤ) = ⌊Real.sqrt ((w : ℝ))⌋ := by
  unfold ratFloorSqrt
  have hfl : (0 : ℤ) ≤ ⌊w⌋ := Int.floor_nonneg.mpr hw
  have htn : ((⌊w⌋.toNat : ℚ)) = ((⌊w⌋ : ℤ) : ℚ) := by
    exact_mod_cast congrArg (fun z : ℤ => (z : ℚ)) (Int.toNat_of_nonneg hfl)
  set k := Nat.sqrt ⌊w⌋.toNat with hk
  have h1 : ((k : ℚ)) ^ 2 ≤ w := by
    have h2 : (k ^ 2 : ℕ) ≤ ⌊w⌋.toNat := Nat.sqrt_le' _
    calc ((k : ℚ)) ^ 2 = ((k ^ 2 : ℕ) : ℚ) := by push_cast; ring
    _ ≤ ((⌊w⌋.toNat : ℕ) : ℚ) := by exact_mod_cast h2
    _ = ((⌊w⌋ : ℤ) : ℚ) := htn
    _ ≤ w := Int.floor_le w
  have h3 : w < ((k : ℚ) + 1) ^ 2 := by
    have h4 : ⌊w⌋.toNat < (k + 1) ^ 2 := by
      have h5 := Nat.lt_succ_sqrt' ⌊w⌋.toNat
      simpa [hk, Nat.succ_eq_add_one] using h5
    calc w < ((⌊w⌋ : ℤ) : ℚ) + 1 := Int.lt_floor_add_one w
    _ = ((⌊w⌋.toNat : ℕ) : ℚ) + 1 := by rw [htn]
    _ ≤ (((k + 1) ^ 2 : ℕ) : ℚ) := by exact_mod_cast Nat.succ_le_of_lt h4
    _ = ((k : ℚ) + 1) ^ 2 := by push_cast; ring
  symm
  rw [Int.floor_eq_iff]
  constructor
  · have hy : (0 : ℝ) ≤ ((w : ℝ)) := by exact_mod_cast hw
    have hres : ((k : ℝ)) ≤ Real.sqrt ((w : ℝ)) := by
      rw [Real.le_sqrt (by positivity) hy]
      exact_mod_cast h1
    exact_mod_cast hres
  · have hres : Real.sqrt ((w : ℝ)) < (k : ℝ) + 1 := by
      rw [Real.sqrt_lt' (by positivity)]
      exact_mod_cast h3
    push_cast
    exact hres

theorem ratRoundSqrt_spec (u : ℚ) (hu : 0 ≤ u) :
    (ratRoundSqrt u : ℤ) = round (Real.sqrt ((u : ℝ))) := by
  unfold ratRoundSqrt
  have h4u : (0 : ℚ) ≤ 4 * u := by linarith
  have hfl := ratFloorSqrt_spec (4 * u) h4u
  set m := ratFloorSqrt (4 * u) with hm
  have hsq : Real.sqrt (((4 * u : ℚ) : ℝ)) = 2 * Real.sqrt ((u : ℝ)) := by
    push_cast
    rw [show (4 : ℝ) * (u : ℝ) = 2 ^ 2 * (u : ℝ) from by ring,
      Real.sqrt_mul (by positivity) _, Real.sqrt_sq (by norm_num)]
  have hb1 : (m : ℝ) ≤ 2 * Real.sqrt ((u : ℝ)) := by
    rw [← hsq]
    have hle := Int.floor_le (Real.sqrt (((4 * u : ℚ) : ℝ)))
    rw [← hfl] at hle
    exact_mod_cast hle
  have hb2 : 2 * Real.sqrt ((u : ℝ)) < (m : ℝ) + 1 := by
    rw [← hsq]
    have hlt := Int.lt_floor_add_one (Real.sqrt (((4 * u : ℚ) : ℝ)))
    rw [← hfl] at hlt
    exact_mod_cast hlt
  rw [round_eq]
  rcases Nat.even_or_odd m with ⟨k, hk⟩ | ⟨k, hk⟩
  · have hn : (m + 1) / 2 = k := by omega
    rw [hn]
    symm
    rw [Int.floor_eq_iff]
    have hmk : (m : ℝ) = 2 * (k : ℝ) := by
      rw [hk]; push_cast; ring
    rw [hmk] at hb1 hb2
    constructor
    · push_cast
      linarith
    · push_cast
      linarith
  · have hn : (m + 1) / 2 = k + 1 := by omega
    rw [hn]
    symm
    rw [Int.floor_eq_iff]
    have hmk : (m : ℝ) = 2 * (k : ℝ) + 1 := by
      rw [hk]; push_cast; ring
    rw [hmk] at hb1 hb2
    constructor
    · push_cast
      linarith
    · push_cast
      linarith

theorem round2Sqrt_eq (v : ℚ) (hv : 0 ≤ v) :
    ((round2Sqrt v : ℚ) : ℝ) =
      ((round ((100 : ℝ) * Real.sqrt ((v : ℝ))) : ℤ) : ℝ) / 100 := by
  have h1 : (100 : ℝ) * Real.sqrt ((v : ℝ)) = Real.sqrt (((10000 * v : ℚ) : ℝ)) := by
    push_cast
    rw [show (10000 : ℝ) * (v : ℝ) = 100 ^ 2 * (v : ℝ) from by ring,
      Real.sqrt_mul (by positivity) _, Real.sqrt_sq (by norm_num)]
  rw [h1, ← ratRoundSqrt_spec (10000 * v) (by linarith)]
  unfold round2Sqrt
  push_cast
  ring

/-- C1: `stdev_ms` equals the sample standard deviation of the latency set
(square root of the sum of squared deviations from the mean divided by
`n - 1`) rounded to 2 decimal places when at least 2 latency values are
present, and is exactly the number `0.0` (never `None`) when 0 or 1 latency
values are present. -/
theorem aggregate_stdev (results : List ProbeOutcome) :
    (((aggregate_results results).stdev_ms : ℚ) : ℝ) =
      if 2 ≤ (latencies results).length then
        ((round ((100 : ℝ) * Real.sqrt
            ((((latencies results).map (fun x : ℚ =>
                ((x : ℝ) - ((latencies results).map (fun y : ℚ => (y : ℝ))).sum /
                  ((latencies results).length : ℝ)) ^ 2)).sum) /
              (((latencies results).length : ℝ) - 1))) : ℤ) : ℝ) / 100
      else 0 := by
  by_cases h : 2 ≤ (latencies results).length
  · rw [if_pos h]
    have h1 : 1 < (latencies results).length := h
    simp only [aggregate_results, if_pos h1]
    rw [round2Sqrt_eq _ (sampleVariance_nonneg _ h), sampleVariance_cast]
  · rw [if_neg h]
    have h1 : ¬ 1 < (latencies results).length := h
    simp [aggregate_results, if_neg h1]

/-- Sanity check, end-to-end scenario 1 of the spec: latencies 100, 120,
110 ms with status 200 give avg 110.0, stdev 10.0, min 100.0, max 120.0. -/
theorem scenario_three_successes :
    aggregate_results [ProbeOutcome.mk (some 200) (some 100) (some 5) none,
        ProbeOutcome.mk (some 200) (some 120) (some 5) none,
        ProbeOutcome.mk (some 200) (some 110) (some 5) none] =
      TargetSummary.mk 3 3 0 (some 100) (some 110) (some 120) 10 := by
  have hl : latencies [ProbeOutcome.mk (some 200) (some 100) (some 5) none,
      ProbeOutcome.mk (some 200) (some 120) (some 5) none,
      ProbeOutcome.mk (some 200) (some 110) (some 5) none] = [100, 120, 110] := by
    simp [latencies, List.filterMap_cons]
  have hs : statuses [ProbeOutcome.mk (some 200) (some 100) (some 5) none,
      ProbeOutcome.mk (some 200) (some 120) (some 5) none,
      ProbeOutcome.mk (some 200) (some 110) (some 5) none] = [200, 200, 200] := by
    simp [statuses, List.filterMap_cons]
  have he : errors [ProbeOutcome.mk (some 200) (some 100) (some 5) none,
      ProbeOutcome.mk (some 200) (some 120) (some 5) none,
      ProbeOutcome.mk (some 200) (some 110) (some 5) none] = [] := by
    simp [errors, List.filterMap_cons]
  have hmean : pyMean [(100 : ℚ), 120, 110] = 110 := by
    unfold pyMean
    norm_num
  have hvar : sampleVariance [(100 : ℚ), 120, 110] = 100 := by
    unfold sampleVariance
    rw [hmean]
    norm_num
  have hfloor : (⌊(4 * (10000 * 100) : ℚ)⌋).toNat = 4000000 := by
    norm_num
    decide
  have ha1 : ratFloorSqrt (4 * (10000 * 100)) = Nat.sqrt 4000000 := by
    rw [ratFloorSqrt, hfloor]
  have hsqrt : Nat.sqrt 4000000 = 2000 := by
    rw [show (4000000 : ℕ) = 2000 ^ 2 from by norm_num]
    exact Nat.sqrt_eq' 2000
  have ha2 : ratRoundSqrt (10000 * 100) = 1000 := by
    rw [ratRoundSqrt, ha1, hsqrt]
  have hstdev : round2Sqrt 100 = 10 := by
    rw [round2Sqrt, ha2]
    norm_num
  unfold aggregate_results
  rw [hl, hs, he, hvar, hstdev]
  have hmin : pyMin [(100 : ℚ), 120, 110] = some 100 := by
    unfold pyMin
    norm_num
  have hmax : pyMax [(100 : ℚ), 120, 110] = some 120 := by
    unfold pyMax
    norm_num
  rw [hmin, hmax, hmean]
  have h100 : round2 100 = 100 := by unfold round2; norm_num
  have h110 : round2 110 = 110 := by unfold round2; norm_num
  have h120 : round2 120 = 120 := by unfold round2; norm_num
  simp [h100, h110, h120, isSuccessStatus, strIsDigit, List.countP_cons]

/-- Sanity check, end-to-end scenario 2 of the spec: two transport failures
give count 2, success 0, failure 2, min/avg/max absent, stdev 0.0. -/
theorem scenario_two_failures :
    aggregate_results [ProbeOutcome.mk none none none (some "connection error"),
        ProbeOutcome.mk none none none (some "connection error")] =
      TargetSummary.mk 2 0 2 none none none 0 := by decide

end ApiLatency
